import Mathlib

/-!
Shallow embedding of the watt-extra agent's core control logic, together
with theorems checking the natural-language specification against it.

The embedding covers:
* `src/lib/scaling-algorithm.js` (`ScalingAlgorithm`): ELU window pruning,
  per-app mean ELU, and `getRecommendations`;
* the scaler plugin's `checkForScaling` guard (cooldown + `isScaling` mutex);
* `src/plugins/flamegraphs.js`: `Profiler.#getProfileRequests`, the pause
  registry (`isProfilingPaused`), and the profile sink
  (`createProfileHandler` / `_attachFlamegraphToAlerts` /
  `attachFlamegraphToAlerts`);
* `src/plugins/health-signals.js`: `HealthSignalsCache.addServiceSignal`
  and the one-second batch-flush timer.

JavaScript numbers that hold ELU values are modelled as `Rat`; timestamps
(`Date.now()` values, milliseconds) as `Int`.  A JavaScript value that may
be `undefined` (for example an app ELU when no samples exist) is modelled
as an `Option`; comparisons against `undefined`/`NaN` are `false` in
JavaScript, which the `js*` helpers below reproduce.
-/

attribute [local semireducible] Rat.add Rat.sub Rat.mul Rat.inv Rat.ofScientific

/-- JavaScript `a < b` on possibly-undefined numbers: false when either side
is `undefined` (or `NaN`). -/
def jsLtB (a b : Option Rat) : Bool :=
  match a, b with
  | some x, some y => decide (x < y)
  | _, _ => false

/-- JavaScript `a > b` on possibly-undefined numbers. -/
def jsGtB (a b : Option Rat) : Bool :=
  match a, b with
  | some x, some y => decide (y < x)
  | _, _ => false

/-- JavaScript `a >= b` on possibly-undefined numbers. -/
def jsGeB (a b : Option Rat) : Bool :=
  match a, b with
  | some x, some y => decide (y ≤ x)
  | _, _ => false

/-- JavaScript subtraction; `undefined - x` is `NaN`, modelled as `none`. -/
def jsSub (a b : Option Rat) : Option Rat :=
  match a, b with
  | some x, some y => some (x - y)
  | _, _ => none

/-- JavaScript `Math.round`: nearest integer, halves towards positive
infinity. -/
def jsRound (q : Rat) : Int :=
  (q + 1 / 2).floor

/-! ## Scaling algorithm (`src/lib/scaling-algorithm.js`) -/

/-- One `{ elu, timestamp }` entry of a worker's ELU window
(`this.#appsELUs[applicationId][workerId]`). -/
structure EluEntry where
  elu : Rat
  timestamp : Int
deriving DecidableEq

/-- One application's ELU state: the association of worker ids to their
ELU windows (`this.#appsELUs[applicationId]`). -/
abbrev AppELUs := List (String × List EluEntry)

/-- The inner loop of `#removeOutdatedAppELUs` on a single worker's window:
scan for the first index `i` whose timestamp is strictly below the cutoff
`now - timeWindowSec * 1000`; if found, `splice(0, i)` (drop the `i`
entries before it) and break. -/
def pruneWorkerELUs (cutoff : Int) (l : List EluEntry) : List EluEntry :=
  match l.findIdx? (fun e => decide (e.timestamp < cutoff)) with
  | none => l
  | some i => l.drop i

/-- `ScalingAlgorithm.#removeOutdatedAppELUs`: prune every worker's window
and delete workers whose window became empty. -/
def removeOutdatedAppELUs (now timeWindowSec : Int) (appELUs : AppELUs) : AppELUs :=
  (appELUs.map (fun p => (p.1, pruneWorkerELUs (now - timeWindowSec * 1000) p.2))).filter
    (fun p => !p.2.isEmpty)

/-- Sum of a list of rationals, as the JS `reduce((sum, e) => sum + e, 0)`. -/
def ratSum (l : List Rat) : Rat :=
  l.foldl (· + ·) 0

/-- `ScalingAlgorithm.#calculateAppELU`: prune, then average each worker's
window and average those means across workers, rounding to 2 decimals.
`none` models the JS `undefined` returned when the app has no state (an
app map that is empty after pruning yields `0/0 = NaN` in JS, which
behaves like `undefined` in every later comparison, so both are `none`
here). -/
def calculateAppELU (now timeWindowSec : Int) (app : Option AppELUs) : Option Rat :=
  match app with
  | none => none
  | some appELUs =>
    let pruned := removeOutdatedAppELUs now timeWindowSec appELUs
    if pruned.isEmpty then none
    else
      let means := pruned.map (fun p => ratSum (p.2.map (·.elu)) / (p.2.length : Rat))
      some ((jsRound (ratSum means / (means.length : Rat) * 100) : Rat) / 100)

/-- The constructor options of `ScalingAlgorithm` (with their defaults). -/
structure ScalingOptions where
  scaleUpELU : Rat := 8 / 10
  scaleDownELU : Rat := 2 / 10
  maxWorkers : Nat := 10
  minELUDiff : Rat := 2 / 10
  timeWindowSec : Int := 60
deriving DecidableEq

inductive Direction where
  | up
  | down
deriving DecidableEq

/-- A `{ applicationId, workersCount, direction }` recommendation pushed by
`getRecommendations`. -/
structure Recommendation where
  applicationId : String
  workersCount : Nat
  direction : Direction
deriving DecidableEq

/-- The `{ applicationId, elu, workersCount }` aggregate built in the first
loop of `getRecommendations`. -/
structure AppInfo where
  applicationId : String
  elu : Option Rat
  workersCount : Nat
deriving DecidableEq

/-- One iteration of the first loop of `getRecommendations`: find the
worker's app in `appsInfo` (pushing a fresh `{ elu, workersCount: 0 }`
entry when absent) and increment its `workersCount`.  Ids in `apps` are
unique by construction, so updating every match equals updating the first. -/
def addWorker (elu : String → Option Rat) (apps : List AppInfo) (appId : String) : List AppInfo :=
  if apps.any (fun a => a.applicationId == appId) then
    apps.map (fun a =>
      if a.applicationId == appId then { a with workersCount := a.workersCount + 1 } else a)
  else
    apps ++ [⟨appId, elu appId, 1⟩]

/-- The first loop of `getRecommendations` over `workersInfo` (each worker
contributing its `application` id). -/
def buildAppsInfo (elu : String → Option Rat) (workersInfo : List String) : List AppInfo :=
  workersInfo.foldl (addWorker elu) []

/-- The sort comparator of `getRecommendations`: ELU ascending, ties broken
by `workersCount` descending.  Comparisons against an `undefined` ELU are
false, as in JS. -/
def compareApps (a b : AppInfo) : Int :=
  if jsGtB a.elu b.elu then 1
  else if jsLtB a.elu b.elu then -1
  else if a.workersCount < b.workersCount then 1
  else if b.workersCount < a.workersCount then -1
  else 0

/-- Stable insertion used to model `Array.prototype.sort` (stable per the
ECMAScript specification): a later element passes over every earlier
element it does not strictly precede. -/
def insertSorted (x : AppInfo) : List AppInfo → List AppInfo
  | [] => [x]
  | y :: ys => if compareApps x y < 0 then x :: y :: ys else y :: insertSorted x ys

/-- The `appsInfo.sort(...)` step: stable sort by `compareApps`. -/
def sortApps (apps : List AppInfo) : List AppInfo :=
  apps.foldl (fun acc x => insertSorted x acc) []

/-- One iteration of the scale-down loop of `getRecommendations`: an app
with `elu < scaleDownELU` and more than one worker receives a `down`
recommendation and decrements the running total worker count. -/
def scaleDownStep (opts : ScalingOptions) (acc : List Recommendation × Int) (a : AppInfo) :
    List Recommendation × Int :=
  if jsLtB a.elu (some opts.scaleDownELU) && decide (1 < a.workersCount) then
    (acc.1 ++ [⟨a.applicationId, a.workersCount - 1, Direction.down⟩], acc.2 - 1)
  else acc

/-- The scale-down pass of `getRecommendations`, threading the
recommendation list and `totalWorkersCount`. -/
def scaleDownPass (opts : ScalingOptions) (apps : List AppInfo) (total : Int) :
    List Recommendation × Int :=
  apps.foldl (scaleDownStep opts) ([], total)

/-- The scale-up / reallocation tail of `getRecommendations`
(`appsInfo.at(-1)` onwards).  `none` models the TypeError thrown when
`appsInfo` is empty and `scaleUpCandidate.elu` dereferences `undefined`. -/
def scaleUpPhase (opts : ScalingOptions) (apps : List AppInfo) (recs : List Recommendation)
    (total : Int) : Option (List Recommendation) :=
  match apps.getLast? with
  | none => none
  | some cand =>
    some <|
      if jsGtB cand.elu (some opts.scaleUpELU) then
        if decide ((opts.maxWorkers : Int) ≤ total) then
          match apps.head? with
          | none => recs
          | some donor =>
            if jsGeB (jsSub cand.elu donor.elu) (some opts.minELUDiff)
                || decide (2 ≤ (donor.workersCount : Int) - (cand.workersCount : Int)) then
              recs ++ [⟨donor.applicationId, donor.workersCount - 1, Direction.down⟩,
                       ⟨cand.applicationId, cand.workersCount + 1, Direction.up⟩]
            else recs
        else recs ++ [⟨cand.applicationId, cand.workersCount + 1, Direction.up⟩]
      else recs

/-- `ScalingAlgorithm.getRecommendations`, with the per-app ELU (the value
`#calculateAppELU` yields for each application id) passed as a function.
`workersInfo` lists each worker's `application` id. -/
def getRecommendationsWith (opts : ScalingOptions) (elu : String → Option Rat)
    (workersInfo : List String) : Option (List Recommendation) :=
  let apps := sortApps (buildAppsInfo elu workersInfo)
  let p := scaleDownPass opts apps (workersInfo.length : Int)
  scaleUpPhase opts apps p.1 p.2

/-- `getRecommendations` over the full per-app ELU state, computing each
app's ELU through `#calculateAppELU` exactly as the method does. -/
def getRecommendations (opts : ScalingOptions) (now : Int)
    (appsELUs : String → Option AppELUs) (workersInfo : List String) :
    Option (List Recommendation) :=
  getRecommendationsWith opts
    (fun appId => calculateAppELU now opts.timeWindowSec (appsELUs appId)) workersInfo

/-! ## Profiler request matching (`src/plugins/flamegraphs.js`, `Profiler`) -/

/-- A `{ alertId?, timestamp }` entry of `Profiler.#requests`
(`requestProfile` fills a missing timestamp with `Date.now()`). -/
structure ProfileRequest where
  alertId : Option String
  timestamp : Int
deriving DecidableEq

/-- The loop of `Profiler.#getProfileRequests`: walk the whole queue with
index `i`, setting `processedIndex = i + 1` at every request whose
timestamp is at most the profile timestamp. -/
def processedIndexLoop (t : Int) : List ProfileRequest → Nat → Nat → Nat
  | [], _, acc => acc
  | r :: rs, i, acc =>
    processedIndexLoop t rs (i + 1) (if r.timestamp ≤ t then i + 1 else acc)

/-- `Profiler.#getProfileRequests`: with an `undefined` profile timestamp
the whole queue is taken; otherwise `splice(0, processedIndex)` removes
and returns the first `processedIndex` requests, the rest stay queued.
The result is `(handed to the sink, still queued)`. -/
def getProfileRequests (profileTimestamp : Option Int) (reqs : List ProfileRequest) :
    List ProfileRequest × List ProfileRequest :=
  match profileTimestamp with
  | none => (reqs, [])
  | some t =>
    let k := processedIndexLoop t reqs 0 0
    (reqs.take k, reqs.drop k)

/-! ## Profiling pause registry (`src/plugins/flamegraphs.js`) -/

/-- The result object of `isProfilingPaused`. -/
structure PauseStatus where
  isPaused : Bool
  pauseEndTimestamp : Option Int
  remainingTimeSec : Int
deriving DecidableEq

/-- `isProfilingPaused(serviceId)`: a pause record
(`profilersPauseReqs[serviceId] = { timestamp: expiry }`) pauses the
service while `pauseReq.timestamp > Date.now()`. -/
def isProfilingPaused (pauseReqs : String → Option Int) (serviceId : String) (now : Int) :
    PauseStatus :=
  match pauseReqs serviceId with
  | none => ⟨false, none, 0⟩
  | some ts => ⟨decide (now < ts), some ts, jsRound (((ts - now : Int) : Rat) / 1000)⟩

/-- The outcome of `app.requestFlamegraphs` for one service id. -/
inductive ServiceRequestOutcome where
  | dropped
  | enqueued
deriving DecidableEq

/-- The per-service branch of `app.requestFlamegraphs`: when
`isProfilingPaused` reports a pause the service is skipped with an info
log (no profiler is created and nothing is enqueued); otherwise a profiler
is looked up or created and `requestProfile` enqueues the request. -/
def requestServiceProfile (pauseReqs : String → Option Int) (serviceId : String) (now : Int) :
    ServiceRequestOutcome :=
  if (isProfilingPaused pauseReqs serviceId now).isPaused then ServiceRequestOutcome.dropped
  else ServiceRequestOutcome.enqueued

/-! ## Profile sink (`createProfileHandler` and the attach fallback) -/

/-- JavaScript `error.includes('Route POST')`. -/
def containsRoutePost (s : String) : Bool :=
  decide ("Route POST".toList <:+: s.toList)

/-- How a call of `attachFlamegraphToAlerts` ends, given the HTTP status
code and error body of the attach endpoint's response. -/
inductive AttachResult where
  | ok
  | notSupported
  | otherFailure
deriving DecidableEq

/-- `attachFlamegraphToAlerts`: a non-200 status raises an error; a 404
whose body contains the literal `Route POST` is translated into the
`PLT_ATTACH_FLAMEGRAPH_MULTIPLE_ALERTS_NOT_SUPPORTED` error. -/
def attachFlamegraphResult (statusCode : Nat) (errorBody : String) : AttachResult :=
  if statusCode ≠ 200 then
    if statusCode = 404 && containsRoutePost errorBody then AttachResult.notSupported
    else AttachResult.otherFailure
  else AttachResult.ok

/-- The observable effects of `_attachFlamegraphToAlerts`: the attach
calls made, the per-alert re-uploads (`sendServiceFlamegraph` calls) that
follow a failed attach, and which log branch of the catch ran. -/
structure AttachTrace where
  attachCalls : List (List String)
  reUploads : List String
  warnedNotSupported : Bool
  erroredAttachFailure : Bool
deriving DecidableEq

/-- `_attachFlamegraphToAlerts`: try the attach endpoint once; on success
return.  On failure log (warn for the multiple-alerts-not-supported error,
error otherwise) and fall through to one `sendServiceFlamegraph` re-upload
per alert id. -/
def attachFlamegraphToAlertsCompat (statusCode : Nat) (errorBody : String)
    (alertIds : List String) : AttachTrace :=
  match attachFlamegraphResult statusCode errorBody with
  | AttachResult.ok => ⟨[alertIds], [], false, false⟩
  | AttachResult.notSupported => ⟨[alertIds], alertIds, true, false⟩
  | AttachResult.otherFailure => ⟨[alertIds], alertIds, false, true⟩

/-- The observable effects of the sink returned by `createProfileHandler`:
every `sendServiceFlamegraph` call with the alert id it carries (the
initial upload first), and the attach calls. -/
structure HandlerTrace where
  uploads : List (Option String)
  attachCalls : List (List String)
  warnedNotSupported : Bool
  erroredAttachFailure : Bool
deriving DecidableEq

/-- The sink returned by `createProfileHandler`, applied to
`(err, profile, requests)`.  `err` is whether profile generation failed;
`uploadOk` is whether the initial `sendServiceFlamegraph` succeeds, and
`attachStatusCode`/`attachBody` describe the attach endpoint's response
when it is called.  The sink extracts the non-null alert ids in order,
shifts the first one into the initial upload, and when more remain runs
`_attachFlamegraphToAlerts` with all of them. -/
def createProfileHandlerRun (err : Bool) (uploadOk : Bool) (attachStatusCode : Nat)
    (attachBody : String) (requests : List ProfileRequest) : HandlerTrace :=
  if err then ⟨[], [], false, false⟩
  else
    let alertIds := requests.filterMap (fun r => r.alertId)
    let first := alertIds.head?
    let rest := alertIds.tail
    if uploadOk then
      if decide (0 < rest.length) then
        let t := attachFlamegraphToAlertsCompat attachStatusCode attachBody rest
        ⟨first :: t.reUploads.map some, t.attachCalls, t.warnedNotSupported,
          t.erroredAttachFailure⟩
      else ⟨[first], [], false, false⟩
    else ⟨[first], [], false, false⟩

/-! ## Scaling controller guard (the scaler plugin's `checkForScaling`) -/

/-- The scaler plugin's mutable guard state: the `isScaling` mutex and the
`lastScaling` completion timestamp. -/
structure ScalerState where
  isScaling : Bool
  lastScaling : Int
deriving DecidableEq

/-- The entry of `checkForScaling` at time `now`: return `(false, s)`
unchanged when `isScaling` is set or `now < lastScaling + cooldown * 1000`;
otherwise set `isScaling` and report that the body runs. -/
def checkForScalingEnter (cooldownSec : Int) (s : ScalerState) (now : Int) :
    Bool × ScalerState :=
  let isInCooldown := decide (now < s.lastScaling + cooldownSec * 1000)
  if s.isScaling || isInCooldown then (false, s)
  else (true, { s with isScaling := true })

/-- The `finally` block of `checkForScaling`, run at completion time
whether or not the body failed: clear `isScaling` and stamp
`lastScaling`. -/
def checkForScalingFinish (now : Int) : ScalerState :=
  ⟨false, now⟩

/-- One whole `checkForScaling` call: enter at `tStart`; when the guard
passes, the body fetches workers, computes recommendations, and applies
them when the list is nonempty (`bodyFails` covers a throw anywhere in the
body); the `finally` block then runs at `tEnd`.  Returns the final state
and whether recommendations were applied. -/
def checkForScalingRun (cooldownSec : Int) (s : ScalerState) (tStart tEnd : Int)
    (bodyFails : Bool) (recommendations : List Recommendation) : ScalerState × Bool :=
  let e := checkForScalingEnter cooldownSec s tStart
  if e.1 then
    (checkForScalingFinish tEnd, !bodyFails && decide (0 < recommendations.length))
  else (e.2, false)

/-! ## Health-signals cache and batcher (`src/plugins/health-signals.js`) -/

/-- The key of one signal buffer:
`(serviceId, signalType, workerId)`. -/
abbrev SignalKey := String × String × String

/-- `HealthSignalsCache.#signalsByService`, seen as the buffer stored at
each key (absent keys hold `[]`, as `??=` initialises them on demand).
Each buffer entry is a `[timestamp, value]` tuple. -/
def SignalsCache : Type :=
  SignalKey → List (Int × Rat)

/-- The empty cache (`{}`; also the state after `getAllSignals`). -/
def emptySignalsCache : SignalsCache :=
  fun _ => []

/-- The `#maxSize` cap of `HealthSignalsCache`. -/
def signalsMaxSize : Nat := 500

/-- `HealthSignalsCache.addServiceSignal`: push `[timestamp, value]` onto
the `(serviceId, signalType, workerId)` buffer, then
`splice(0, length - maxSize)` the oldest entries when the cap is
exceeded. -/
def addServiceSignal (c : SignalsCache) (serviceId signalType workerId : String)
    (timestamp : Int) (value : Rat) : SignalsCache :=
  fun k =>
    if k = (serviceId, signalType, workerId) then
      let values := c (serviceId, signalType, workerId) ++ [(timestamp, value)]
      if signalsMaxSize < values.length then values.drop (values.length - signalsMaxSize)
      else values
    else c k

/-- One `addServiceSignal` call, as data. -/
structure SignalOp where
  serviceId : String
  signalType : String
  workerId : String
  timestamp : Int
  value : Rat

/-- A sequence of `addServiceSignal` calls applied in order. -/
def applySignalOps (c : SignalsCache) (ops : List SignalOp) : SignalsCache :=
  ops.foldl (fun c o => addServiceSignal c o.serviceId o.signalType o.workerId o.timestamp o.value) c

/-- The batcher configuration read in `setupHealthSignals`: the short and
long batch timeouts, the ELU threshold, and the heap threshold already
rounded to MiB (`Math.round(heapThreshold / 1024 / 1024)`). -/
structure BatcherConfig where
  batchShortTimeout : Int
  batchLongTimeout : Int
  eluThreshold : Rat
  heapThresholdMb : Int

/-- The mutable state of the batcher: `batchStartedAt` (null when no batch
is open), `batchHasHighValue`, and the signals cache. -/
structure BatcherState where
  batchStartedAt : Option Int
  batchHasHighValue : Bool
  cache : SignalsCache

/-- One `application:worker:health:metrics` event as consumed by
`healthMetricsListener`. -/
structure HealthMetrics where
  workerId : String
  serviceId : String
  elu : Rat
  heapUsed : Int
  heapTotal : Int
  healthSignals : List SignalOp

/-- Rounded heap-used MiB: `Math.round(heapUsed / 1024 / 1024)`. -/
def heapUsedMbOf (heapUsed : Int) : Int :=
  jsRound ((heapUsed : Rat) / 1024 / 1024)

/-- `healthMetricsListener`: open a batch if none is open, record the ELU
and heap samples plus the extra `healthSignals`, and raise
`batchHasHighValue` when the ELU exceeds `eluThreshold` or the rounded
heap-used MiB exceeds `heapThresholdMb`. -/
def healthMetricsListenerStep (cfg : BatcherConfig) (s : BatcherState) (m : HealthMetrics)
    (now : Int) : BatcherState :=
  let heapUsedMb := heapUsedMbOf m.heapUsed
  let startedAt := some (s.batchStartedAt.getD now)
  let c1 := addServiceSignal s.cache m.serviceId "elu" m.workerId now m.elu
  let c2 := addServiceSignal c1 m.serviceId "heap" m.workerId now (heapUsedMb : Rat)
  let c3 := m.healthSignals.foldl
    (fun c sig => addServiceSignal c m.serviceId sig.signalType sig.workerId sig.timestamp sig.value)
    c2
  let high := s.batchHasHighValue
    || (decide (cfg.eluThreshold < m.elu) || decide (cfg.heapThresholdMb < heapUsedMb))
  ⟨startedAt, high, c3⟩

/-- Whether one health-metrics event carries a value above a threshold (the
condition that raises `batchHasHighValue`). -/
def isHighSample (cfg : BatcherConfig) (m : HealthMetrics) : Bool :=
  decide (cfg.eluThreshold < m.elu) || decide (cfg.heapThresholdMb < heapUsedMbOf m.heapUsed)

/-- The body of the batcher's one-second `setInterval` timer at time `now`:
no-op while no batch is open; otherwise flush exactly when
`now - batchStartedAt ≥ batchTimeout`, with the short timeout when the
batch has seen a high value and the long one otherwise.  A flush clears the
flag, empties the cache (`getAllSignals`), posts `(signals, batchStartedAt)`
(the second component of the result), and restarts the batch at `now`. -/
def batcherTimerStep (cfg : BatcherConfig) (s : BatcherState) (now : Int) :
    BatcherState × Option (SignalsCache × Int) :=
  match s.batchStartedAt with
  | none => (s, none)
  | some startedAt =>
    let batchTimeout := if s.batchHasHighValue then cfg.batchShortTimeout
      else cfg.batchLongTimeout
    if batchTimeout ≤ now - startedAt then
      (⟨some now, false, emptySignalsCache⟩, some (s.cache, startedAt))
    else (s, none)

/-! ## Helper lemmas -/

theorem insertSorted_length (x : AppInfo) (l : List AppInfo) :
    (insertSorted x l).length = l.length + 1 := by
  induction l with
  | nil => rfl
  | cons y ys ih =>
    unfold insertSorted
    by_cases h : compareApps x y < 0 <;> simp [h, ih]

theorem sortApps_length (l : List AppInfo) : (sortApps l).length = l.length := by
  suffices h : ∀ acc : List AppInfo,
      (l.foldl (fun acc x => insertSorted x acc) acc).length = acc.length + l.length by
    simpa using h []
  induction l with
  | nil => intro acc; simp
  | cons y ys ih =>
    intro acc
    simp only [List.foldl_cons, ih, insertSorted_length, List.length_cons]
    omega

theorem addWorker_length (elu : String → Option Rat) (apps : List AppInfo) (appId : String) :
    apps.length ≤ (addWorker elu apps appId).length := by
  unfold addWorker
  by_cases h : apps.any (fun a => a.applicationId == appId) <;> simp [h]

theorem buildAppsInfo_ne_nil (elu : String → Option Rat) (workersInfo : List String)
    (h : workersInfo ≠ []) : buildAppsInfo elu workersInfo ≠ [] := by
  match workersInfo, h with
  | w :: ws, _ =>
    have hmono : ∀ (l : List String) (apps : List AppInfo),
        apps.length ≤ (l.foldl (addWorker elu) apps).length := by
      intro l
      induction l with
      | nil => intro apps; simp
      | cons x xs ih =>
        intro apps
        calc apps.length ≤ (addWorker elu apps x).length := addWorker_length elu apps x
          _ ≤ _ := ih (addWorker elu apps x)
    have h1 : 1 ≤ (buildAppsInfo elu (w :: ws)).length := by
      have := hmono ws (addWorker elu [] w)
      have hw : (addWorker elu [] w).length = 1 := by rfl
      simpa [buildAppsInfo, hw] using this
    intro hc
    rw [hc] at h1
    simp at h1

theorem scaleUpPhase_eq_none_iff (opts : ScalingOptions) (apps : List AppInfo)
    (recs : List Recommendation) (total : Int) :
    scaleUpPhase opts apps recs total = none ↔ apps.getLast? = none := by
  unfold scaleUpPhase
  cases h : apps.getLast? <;> simp

/-! ## Claim theorems for the scaling algorithm -/

/-- C1: counter-evidence.  With apps `a` (1 worker, ELU 0.3) and `b`
(1 worker, ELU 0.9) and `maxWorkers = 2`, the scale-up candidate `b`
exceeds `scaleUpELU`, the total worker count is at `maxWorkers`, and the
lowest-ELU app `a` has only one worker — yet `getRecommendations` emits
the reallocation pair (driving the donor to 0 workers), because the code
never checks the donor's worker count.  The claim (and the repository
README) require `workerCount > 1` for the donor. -/
theorem c1_reallocation_ignores_donor_worker_count :
    (sortApps (buildAppsInfo (fun s => if s == "a" then some (3 / 10) else some (9 / 10))
        ["a", "b"])).head? = some ⟨"a", some (3 / 10), 1⟩
    ∧ getRecommendationsWith { maxWorkers := 2 }
        (fun s => if s == "a" then some (3 / 10) else some (9 / 10)) ["a", "b"] =
      some [⟨"a", 0, Direction.down⟩, ⟨"b", 2, Direction.up⟩] := by
  constructor
  · decide
  · decide

/-- C2: counter-evidence.  At `now = 100000` with a 60-second window, the
entry `(elu 1, timestamp 0)` is 100 seconds old, yet
`#removeOutdatedAppELUs` retains it (the scan finds the first outdated
index `i = 0` and `splice(0, 0)` removes nothing), and `#calculateAppELU`
still averages it into the app ELU at read time. -/
theorem c2_stale_window_entry_retained :
    removeOutdatedAppELUs 100000 60 [("w0", [⟨1, 0⟩])] = [("w0", [⟨1, 0⟩])]
    ∧ calculateAppELU 100000 60 (some [("w0", [⟨1, 0⟩])]) = some 1
    ∧ ¬((100000 : Int) - 0 ≤ 60 * 1000) := by
  refine ⟨by decide, by decide, by decide⟩

/-- C3: counter-evidence.  With apps `x` (1 worker, ELU 0.25) and `y`
(2 workers, ELU 0.95) and `maxWorkers = 3`, the reallocation branch emits
a `down` recommendation with a target of 0 workers for `x`, so the
algorithm does recommend 0. -/
theorem c3_recommends_zero_workers :
    getRecommendationsWith { maxWorkers := 3 }
        (fun s => if s == "x" then some (25 / 100) else some (95 / 100)) ["x", "y", "y"] =
      some [⟨"x", 0, Direction.down⟩, ⟨"y", 3, Direction.up⟩] := by
  decide

/-- C10: `getRecommendations` returns normally (models as `some`) exactly
when the workers list is nonempty; on an empty list `appsInfo.at(-1)` is
`undefined` and reading `.elu` throws (modelled as `none`). -/
theorem c10_empty_workers_throws (opts : ScalingOptions) (elu : String → Option Rat)
    (workersInfo : List String) :
    getRecommendationsWith opts elu workersInfo = none ↔ workersInfo = [] := by
  unfold getRecommendationsWith
  rw [scaleUpPhase_eq_none_iff]
  constructor
  · intro h
    by_contra hne
    have h1 := buildAppsInfo_ne_nil elu workersInfo hne
    have h2 : sortApps (buildAppsInfo elu workersInfo) ≠ [] := by
      intro hc
      apply h1
      have := sortApps_length (buildAppsInfo elu workersInfo)
      rw [hc] at this
      exact List.length_eq_zero.mp this.symm
    rw [List.getLast?_eq_none_iff] at h
    exact h2 h
  · rintro rfl
    rfl

/-- C10 witness: at the concrete inputs `[]` and `["a"]` the theorem
yields a throw and a normal return respectively. -/
theorem c10_empty_workers_throws_witness :
    getRecommendationsWith {} (fun _ => none) [] = none
    ∧ getRecommendationsWith {} (fun _ => none) ["a"] ≠ none := by
  constructor
  · exact (c10_empty_workers_throws {} (fun _ => none) []).mpr rfl
  · intro h
    have := (c10_empty_workers_throws {} (fun _ => none) ["a"]).mp h
    simp at this

/-! ## Profile request matching lemmas -/

theorem processedIndexLoop_eq (t : Int) (reqs : List ProfileRequest)
    (hs : reqs.Pairwise (fun a b => a.timestamp ≤ b.timestamp)) :
    ∀ i acc : Nat, processedIndexLoop t reqs i acc =
      if (reqs.takeWhile (fun r => decide (r.timestamp ≤ t))).length = 0 then acc
      else i + (reqs.takeWhile (fun r => decide (r.timestamp ≤ t))).length := by
  induction reqs with
  | nil => intro i acc; simp [processedIndexLoop]
  | cons r rs ih =>
    intro i acc
    rw [List.pairwise_cons] at hs
    by_cases h : r.timestamp ≤ t
    · have hstep : processedIndexLoop t (r :: rs) i acc = processedIndexLoop t rs (i + 1) (i + 1) := by
        simp [processedIndexLoop, h]
      rw [hstep, ih hs.2]
      simp only [List.takeWhile_cons, h, decide_True, List.length_cons]
      by_cases h2 : (rs.takeWhile (fun r => decide (r.timestamp ≤ t))).length = 0 <;>
        simp [h2]
      omega
    · have hall : ∀ x ∈ rs, ¬(x.timestamp ≤ t) := by
        intro x hx
        have := hs.1 x hx
        omega
      have hrs : (rs.takeWhile (fun r => decide (r.timestamp ≤ t))).length = 0 := by
        cases rs with
        | nil => rfl
        | cons y ys =>
          have hy : ¬(y.timestamp ≤ t) := hall y (by simp)
          simp [List.takeWhile_cons, hy]
      have hstep : processedIndexLoop t (r :: rs) i acc = processedIndexLoop t rs (i + 1) acc := by
        simp [processedIndexLoop, h]
      rw [hstep, ih hs.2]
      simp [List.takeWhile_cons, h, hrs]

theorem takeWhile_timestamps_eq_filter (t : Int) (reqs : List ProfileRequest)
    (hs : reqs.Pairwise (fun a b => a.timestamp ≤ b.timestamp)) :
    reqs.takeWhile (fun r => decide (r.timestamp ≤ t)) =
      reqs.filter (fun r => decide (r.timestamp ≤ t)) := by
  induction reqs with
  | nil => rfl
  | cons r rs ih =>
    rw [List.pairwise_cons] at hs
    by_cases h : r.timestamp ≤ t
    · simp [List.takeWhile_cons, List.filter_cons, h, ih hs.2]
    · have hall : ∀ x ∈ rs, ¬(x.timestamp ≤ t) := by
        intro x hx
        have := hs.1 x hx
        omega
      have hfil : rs.filter (fun r => decide (r.timestamp ≤ t)) = [] := by
        rw [List.filter_eq_nil_iff]
        intro x hx
        simpa using hall x hx
      simp [List.takeWhile_cons, List.filter_cons, h, hfil]

theorem dropWhile_timestamps_eq_filter (t : Int) (reqs : List ProfileRequest)
    (hs : reqs.Pairwise (fun a b => a.timestamp ≤ b.timestamp)) :
    reqs.dropWhile (fun r => decide (r.timestamp ≤ t)) =
      reqs.filter (fun r => decide (t < r.timestamp)) := by
  induction reqs with
  | nil => rfl
  | cons r rs ih =>
    rw [List.pairwise_cons] at hs
    by_cases h : r.timestamp ≤ t
    · have hr : ¬(t < r.timestamp) := by omega
      simp [List.dropWhile_cons, List.filter_cons, h, hr, ih hs.2]
    · have hall : ∀ x ∈ rs, t < x.timestamp := by
        intro x hx
        have := hs.1 x hx
        omega
      have hfil : rs.filter (fun r => decide (t < r.timestamp)) = rs := by
        rw [List.filter_eq_self]
        intro x hx
        simpa using hall x hx
      have hr : t < r.timestamp := by omega
      simp [List.dropWhile_cons, List.filter_cons, h, hr, hfil]

/-- C4: when a profile with source-timestamp `t` is processed and the
request queue is in enqueue (timestamp) order — `requestProfile` stamps
requests with the current time, so the queue always is — the requests
handed to the sink are exactly those with `timestamp ≤ t` (the first `k`
in insertion order) and the requests with `timestamp > t` stay queued. -/
theorem c4_profile_requests_partition (t : Int) (reqs : List ProfileRequest)
    (hs : reqs.Pairwise (fun a b => a.timestamp ≤ b.timestamp)) :
    getProfileRequests (some t) reqs =
      (reqs.filter (fun r => decide (r.timestamp ≤ t)),
       reqs.filter (fun r => decide (t < r.timestamp))) := by
  have hk : processedIndexLoop t reqs 0 0 =
      (reqs.takeWhile (fun r => decide (r.timestamp ≤ t))).length := by
    rw [processedIndexLoop_eq t reqs hs 0 0]
    by_cases h2 : (reqs.takeWhile (fun r => decide (r.timestamp ≤ t))).length = 0 <;>
      simp [h2]
  have hred : getProfileRequests (some t) reqs =
      (reqs.take (processedIndexLoop t reqs 0 0), reqs.drop (processedIndexLoop t reqs 0 0)) := rfl
  rw [hred, hk, ← takeWhile_timestamps_eq_filter t reqs hs,
    ← dropWhile_timestamps_eq_filter t reqs hs]
  set tw := reqs.takeWhile (fun r => decide (r.timestamp ≤ t)) with htw
  set dw := reqs.dropWhile (fun r => decide (r.timestamp ≤ t)) with hdw
  have hsplit : tw ++ dw = reqs :=
    List.takeWhile_append_dropWhile (fun r => decide (r.timestamp ≤ t)) reqs
  rw [← hsplit, List.take_left, List.drop_left]

/-- C4 witness: a concrete sorted queue split at timestamp 3. -/
theorem c4_profile_requests_partition_witness :
    ([⟨some "a1", 1⟩, ⟨none, 2⟩, ⟨some "a2", 5⟩] :
        List ProfileRequest).Pairwise (fun a b => a.timestamp ≤ b.timestamp)
    ∧ getProfileRequests (some 3) [⟨some "a1", 1⟩, ⟨none, 2⟩, ⟨some "a2", 5⟩] =
      ([⟨some "a1", 1⟩, ⟨none, 2⟩], [⟨some "a2", 5⟩]) := by
  refine ⟨by decide, ?_⟩
  rw [c4_profile_requests_partition 3 [⟨some "a1", 1⟩, ⟨none, 2⟩, ⟨some "a2", 5⟩] (by decide)]
  decide

/-! ## Profile sink claims -/

/-- C5: counterexample.  With two matched alert ids and an attach response
of 500 (neither 404 nor containing `Route POST`), the claim says the
failure is logged and no re-upload occurs — but `_attachFlamegraphToAlerts`
only `return`s on success, so after error-logging it falls through to the
per-alert re-upload loop: a second upload carrying `a2` is made. -/
theorem c5_other_attach_failure_reuploads :
    createProfileHandlerRun false true 500 "internal error" [⟨some "a1", 0⟩, ⟨some "a2", 0⟩] =
      ⟨[some "a1", some "a2"], [["a2"]], false, true⟩
    ∧ (createProfileHandlerRun false true 500 "internal error"
        [⟨some "a1", 0⟩, ⟨some "a2", 0⟩]).uploads ≠ [some "a1"] := by
  exact ⟨by decide, by decide⟩

/-- C5 (amended): with `n ≥ 1` non-null alert ids (order preserved) and a
successful initial upload, exactly one upload carries the first alert id;
with `n > 1` the attach endpoint is called once with the remaining ids,
and a 404 whose body contains `Route POST` is translated into the
multiple-alerts-not-supported error (logged as a warning, other failures
as errors); after ANY attach failure — not only the 404 translation — the
same bytes are re-uploaded once per remaining alert id, while a successful
attach re-uploads nothing. -/
theorem c5_attach_fallback_behavior (err uploadOk : Bool) (sc : Nat) (body : String)
    (reqs : List ProfileRequest) (a : String) (rest : List String)
    (herr : err = false) (hup : uploadOk = true)
    (halerts : reqs.filterMap (fun r => r.alertId) = a :: rest) :
    createProfileHandlerRun err uploadOk sc body reqs =
      match rest with
      | [] => ⟨[some a], [], false, false⟩
      | _ :: _ =>
        match attachFlamegraphResult sc body with
        | AttachResult.ok => ⟨[some a], [rest], false, false⟩
        | AttachResult.notSupported => ⟨some a :: rest.map some, [rest], true, false⟩
        | AttachResult.otherFailure => ⟨some a :: rest.map some, [rest], false, true⟩ := by
  subst herr hup
  cases rest with
  | nil => simp [createProfileHandlerRun, halerts]
  | cons b bs =>
    cases h : attachFlamegraphResult sc body <;>
      simp [createProfileHandlerRun, halerts, attachFlamegraphToAlertsCompat, h]

/-- C5 witness: a 404 attach response whose body contains `Route POST`
routes the concrete two-alert profile through the not-supported fallback:
one upload with `a1`, one attach call with `[a2]`, one re-upload with
`a2`. -/
theorem c5_attach_fallback_behavior_witness :
    ([⟨some "a1", 0⟩, ⟨some "a2", 0⟩] : List ProfileRequest).filterMap (fun r => r.alertId)
        = "a1" :: ["a2"]
    ∧ createProfileHandlerRun false true 404 "Route POST not found"
        [⟨some "a1", 0⟩, ⟨some "a2", 0⟩] =
      ⟨[some "a1", some "a2"], [["a2"]], true, false⟩ := by
  refine ⟨by decide, ?_⟩
  rw [c5_attach_fallback_behavior false true 404 "Route POST not found"
    [⟨some "a1", 0⟩, ⟨some "a2", 0⟩] "a1" ["a2"] rfl rfl (by decide)]
  decide

/-! ## Scaling controller claim -/

/-- C6: `checkForScaling` (1) only applies recommendations when the call
entered outside the cooldown window with the mutex clear, (2) is a no-op
while a decision is in flight (`isScaling`), and (3) whenever the guard
passes, the `finally` block stamps `lastScaling` with the completion time
and clears the mutex even when the body failed. -/
theorem c6_scaler_cooldown_and_mutex (cooldownSec : Int) (s : ScalerState) (tStart tEnd : Int)
    (bodyFails : Bool) (recs : List Recommendation) :
    ((checkForScalingRun cooldownSec s tStart tEnd bodyFails recs).2 = true →
      s.isScaling = false ∧ s.lastScaling + cooldownSec * 1000 ≤ tStart)
    ∧ (s.isScaling = true →
      checkForScalingRun cooldownSec s tStart tEnd bodyFails recs = (s, false))
    ∧ ((checkForScalingEnter cooldownSec s tStart).1 = true →
      (checkForScalingRun cooldownSec s tStart tEnd bodyFails recs).1 =
        { isScaling := false, lastScaling := tEnd }) := by
  by_cases hs : s.isScaling = true
  · refine ⟨?_, ?_, ?_⟩ <;>
      simp [checkForScalingRun, checkForScalingEnter, hs]
  · have hs' : s.isScaling = false := by
      cases h : s.isScaling
      · rfl
      · exact absurd h hs
    by_cases hc : tStart < s.lastScaling + cooldownSec * 1000
    · refine ⟨?_, ?_, ?_⟩ <;>
        simp [checkForScalingRun, checkForScalingEnter, hs', hc]
    · refine ⟨?_, ?_, ?_⟩ <;>
        simp [checkForScalingRun, checkForScalingEnter, checkForScalingFinish, hs', hc]
      omega

/-- C6 witness: with cooldown 1s, `lastScaling = 0` and a call entering at
t = 2000 whose body fails, the guard passes and the completion at t = 3000
still stamps `lastScaling = 3000` and clears the mutex. -/
theorem c6_scaler_cooldown_and_mutex_witness :
    (checkForScalingEnter 1 ⟨false, 0⟩ 2000).1 = true
    ∧ (checkForScalingRun 1 ⟨false, 0⟩ 2000 3000 true []).1 =
      { isScaling := false, lastScaling := 3000 } := by
  refine ⟨by decide, ?_⟩
  exact (c6_scaler_cooldown_and_mutex 1 ⟨false, 0⟩ 2000 3000 true []).2.2 (by decide)

/-! ## Health-signals batcher claim -/

theorem batcher_flag_fold (cfg : BatcherConfig) (samples : List (HealthMetrics × Int)) :
    ∀ s0 : BatcherState,
      (samples.foldl (fun st p => healthMetricsListenerStep cfg st p.1 p.2) s0).batchHasHighValue
        = (s0.batchHasHighValue || samples.any (fun p => isHighSample cfg p.1)) := by
  induction samples with
  | nil => intro s0; simp
  | cons p ps ih =>
    intro s0
    have hstep : (healthMetricsListenerStep cfg s0 p.1 p.2).batchHasHighValue =
        (s0.batchHasHighValue || isHighSample cfg p.1) := by
      simp [healthMetricsListenerStep, isHighSample, heapUsedMbOf]
    simp only [List.foldl_cons, ih, hstep, List.any_cons, Bool.or_assoc]

/-- C7: the one-second batch timer (1) is a no-op while no batch is open,
(2) flushes exactly when `now - batchStartedAt` reaches the batch timeout —
short when the batch has seen a high value, long otherwise — and on a
flush posts the cached signals with the old `batchStartedAt` and restarts
an empty batch at `now` with the flag cleared, and (3) after any run of
listener events from a flag-clear state, the high-value flag is set iff
some event carried an ELU above `eluThreshold` or rounded heap-used MiB
above `heapThresholdMb`. -/
theorem c7_batcher_flush_behavior (cfg : BatcherConfig) (s : BatcherState) (now : Int) :
    (s.batchStartedAt = none → batcherTimerStep cfg s now = (s, none))
    ∧ (∀ t0, s.batchStartedAt = some t0 →
      ((batcherTimerStep cfg s now).2 ≠ none ↔
        (if s.batchHasHighValue then cfg.batchShortTimeout else cfg.batchLongTimeout)
          ≤ now - t0)
      ∧ ((if s.batchHasHighValue then cfg.batchShortTimeout else cfg.batchLongTimeout)
          ≤ now - t0 →
        batcherTimerStep cfg s now =
          (⟨some now, false, emptySignalsCache⟩, some (s.cache, t0))))
    ∧ (∀ s0 : BatcherState, s0.batchHasHighValue = false →
      ∀ samples : List (HealthMetrics × Int),
        (samples.foldl (fun st p => healthMetricsListenerStep cfg st p.1 p.2)
          s0).batchHasHighValue = samples.any (fun p => isHighSample cfg p.1)) := by
  refine ⟨?_, ?_, ?_⟩
  · intro h
    simp [batcherTimerStep, h]
  · intro t0 h
    constructor
    · unfold batcherTimerStep
      rw [h]
      by_cases hto : (if s.batchHasHighValue then cfg.batchShortTimeout
          else cfg.batchLongTimeout) ≤ now - t0 <;>
        simp [hto]
    · intro hto
      unfold batcherTimerStep
      rw [h]
      simp [hto]
  · intro s0 h0 samples
    rw [batcher_flag_fold cfg samples s0, h0, Bool.false_or]

/-- C7 witness: a batch opened at t = 0 that has seen a high value flushes
at t = 1000 with a 1000ms short timeout, restarting an empty batch. -/
theorem c7_batcher_flush_behavior_witness :
    (⟨some 0, true, emptySignalsCache⟩ : BatcherState).batchStartedAt = some 0
    ∧ batcherTimerStep ⟨1000, 10000, 8 / 10, 100⟩ ⟨some 0, true, emptySignalsCache⟩ 1000 =
      (⟨some 1000, false, emptySignalsCache⟩, some (emptySignalsCache, 0)) := by
  refine ⟨rfl, ?_⟩
  exact ((c7_batcher_flush_behavior ⟨1000, 10000, 8 / 10, 100⟩
    ⟨some 0, true, emptySignalsCache⟩ 1000).2.1 0 rfl).2 (by decide)

/-! ## Signal buffer cap claim -/

theorem addServiceSignal_length_le (c : SignalsCache) (sid st wid : String) (ts : Int)
    (v : Rat) (k : SignalKey) (hc : (c k).length ≤ signalsMaxSize) :
    (addServiceSignal c sid st wid ts v k).length ≤ signalsMaxSize := by
  simp only [addServiceSignal]
  by_cases hk : k = (sid, st, wid)
  · rw [if_pos hk]
    by_cases hlen : signalsMaxSize < (c (sid, st, wid) ++ [(ts, v)]).length
    · rw [if_pos hlen, List.length_drop]
      omega
    · rw [if_neg hlen]
      omega
  · rw [if_neg hk]
    exact hc

theorem applySignalOps_length_le (ops : List SignalOp) :
    ∀ c : SignalsCache, (∀ k, (c k).length ≤ signalsMaxSize) →
      ∀ k, (applySignalOps c ops k).length ≤ signalsMaxSize := by
  induction ops with
  | nil =>
    intro c hc k
    exact hc k
  | cons o os ih =>
    intro c hc k
    refine ih _ (fun k2 => ?_) k
    exact addServiceSignal_length_le c o.serviceId o.signalType o.workerId o.timestamp
      o.value k2 (hc k2)

/-- C8: after any sequence of `addServiceSignal` calls starting from the
empty cache, every `(serviceId, signalType, workerId)` buffer holds at
most 500 entries; and each call leaves the touched buffer a suffix of the
old buffer with the new entry appended — the oldest entries are dropped
and the survivors keep their insertion order. -/
theorem c8_signal_buffer_cap (ops : List SignalOp) (k : SignalKey) :
    (applySignalOps emptySignalsCache ops k).length ≤ signalsMaxSize
    ∧ ∀ (c : SignalsCache) (o : SignalOp),
      (addServiceSignal c o.serviceId o.signalType o.workerId o.timestamp o.value
          (o.serviceId, o.signalType, o.workerId)) <:+
        (c (o.serviceId, o.signalType, o.workerId) ++ [(o.timestamp, o.value)]) := by
  constructor
  · exact applySignalOps_length_le ops emptySignalsCache (fun _ => by simp [emptySignalsCache]) k
  · intro c o
    simp only [addServiceSignal, if_true]
    by_cases h : signalsMaxSize <
        (c (o.serviceId, o.signalType, o.workerId) ++ [(o.timestamp, o.value)]).length
    · rw [if_pos h]
      exact List.drop_suffix _ _
    · rw [if_neg h]

/-! ## Profiling pause claim -/

/-- C9: a profile request for a service is dropped iff a pause record with
expiry strictly greater than `now` exists; a record whose expiry equals
`now` exactly is expired and the request is enqueued. -/
theorem c9_pause_drop_iff (pauseReqs : String → Option Int) (serviceId : String) (now : Int) :
    (requestServiceProfile pauseReqs serviceId now = ServiceRequestOutcome.dropped ↔
      ∃ expiry, pauseReqs serviceId = some expiry ∧ now < expiry)
    ∧ (∀ expiry, pauseReqs serviceId = some expiry → expiry = now →
      requestServiceProfile pauseReqs serviceId now = ServiceRequestOutcome.enqueued) := by
  constructor
  · unfold requestServiceProfile isProfilingPaused
    cases h : pauseReqs serviceId with
    | none => simp
    | some ts =>
      by_cases hlt : now < ts <;> simp [hlt]
  · intro e he heq
    unfold requestServiceProfile isProfilingPaused
    rw [he]
    simp [heq]

/-- C9 witness: a pause record expiring exactly at `now = 100` does not
suppress the request. -/
theorem c9_pause_drop_iff_witness :
    (fun s => if s = "svc" then some (100 : Int) else none) "svc" = some 100
    ∧ requestServiceProfile (fun s => if s = "svc" then some (100 : Int) else none)
        "svc" 100 = ServiceRequestOutcome.enqueued := by
  refine ⟨by simp, ?_⟩
  exact (c9_pause_drop_iff (fun s => if s = "svc" then some (100 : Int) else none)
    "svc" 100).2 100 (by simp) rfl
